import Mathlib

/-!
A shallow embedding of the IR core of robotman2412/compilertest
(src/src/compiler/common/ir/ir.c, src/src/compiler/common/ir/opt.c, with the
record layouts of src/src/compiler/common/ir_types.h), and theorems settling
the frozen claims about it.

Modelling conventions, used throughout:
  * Heap objects (variables, code blocks, instructions) are records stored in
    association lists keyed by an allocation id (a `Nat`); allocation ids are
    handed out by a monotone counter starting at 1, mirroring distinct heap
    pointers.  Id 0 is reserved: it stands for a pointer value that is not any
    IR object (see `punTargetRead`).
  * The toolkit's pointer set (`set_t`) is a duplicate-free list in insertion
    order (the spec licenses any stable order keyed by allocation id), and the
    intrusive doubly linked list (`dlist_t`) is a plain list.
  * Process abort (the `[BUG]` diagnostics followed by `abort()`) is the
    `Res.bug` result; functions that cannot abort return plain states.
  * Loops of the C source whose trip count is not structurally bounded
    (the optimizer's do/while drivers and recursive DFS walks) take a fuel
    argument and return `none` when the fuel runs out, so that `∀ fuel, … =
    none` states genuine divergence of the loop.
-/

/- ==================== primitive types (ir_types.h) ==================== -/

/-- IR primitive types, `ir_prim_t` of ir_types.h. -/
inductive IrPrim where
  | s8 | u8 | s16 | u16 | s32 | u32 | s64 | u64 | s128 | u128
  | bool
  | f32 | f64
deriving DecidableEq, Repr

/-- Byte size per primitive type (`ir_prim_sizes`, as documented in the
header and §3 of the specification: 1,1,2,2,4,4,8,8,16,16,1,4,8). -/
def ir_prim_sizes : IrPrim → Nat
  | .s8 => 1 | .u8 => 1 | .s16 => 2 | .u16 => 2 | .s32 => 4 | .u32 => 4
  | .s64 => 8 | .u64 => 8 | .s128 => 16 | .u128 => 16
  | .bool => 1
  | .f32 => 4 | .f64 => 8

/-- Modelled from the spec: `ir_prim_names`, the canonical serialized name of
each primitive.  The array's definition is not among the repository's staged
files; the names follow the serialized forms shown in §8 of the specification
(`s32'0x00000005` and friends). -/
def ir_prim_names : IrPrim → String
  | .s8 => "s8" | .u8 => "u8" | .s16 => "s16" | .u16 => "u16"
  | .s32 => "s32" | .u32 => "u32" | .s64 => "s64" | .u64 => "u64"
  | .s128 => "s128" | .u128 => "u128"
  | .bool => "bool"
  | .f32 => "f32" | .f64 => "f64"

/-- Unary IR operators, `ir_op1_type_t`. -/
inductive IrOp1 where
  | mov | seqz | snez | neg | bneg | lnot
deriving DecidableEq, Repr

/-- Binary IR operators, `ir_op2_type_t`. -/
inductive IrOp2 where
  | sgt | sle | slt | sge | seq | sne | scs | scc
  | add | sub | mul | div | mod
  | shl | shr | band | bor | bxor
  | land | lor
deriving DecidableEq, Repr

/-- An IR constant: a primitive tag plus the low and high 64-bit halves of the
payload (`prim_type`, `iconst`/`constl`, `iconsth`/`consth`).  The C fields are
`uint64_t`; every state considered stores values below `2 ^ 64`, and the
theorems about the serializer quantify over the payload explicitly. -/
structure IrConst where
  prim_type : IrPrim
  constl : Nat
  consth : Nat
deriving DecidableEq, Repr

/-- An IR operand, `ir_operand_t`: a constant or a (non-owning) variable
reference, discriminated by `is_const`. -/
inductive IrOperand where
  | const (c : IrConst)
  | var (v : Nat)
deriving DecidableEq, Repr

/- ==================== hexadecimal formatting (ir_operand_serialize) ==== -/

/-- The hexadecimal digits (each `< 16`, most significant first) of `n`,
computed with the given recursion depth; depth 16 covers every `uint64_t`.
Returns `[]` for 0 so the wrapper `hexRep` can mirror printf, which prints a
single 0 digit for the value 0. -/
def hexRepAux : Nat → Nat → List Nat
  | 0, _ => []
  | f + 1, n => if n = 0 then [] else hexRepAux f (n / 16) ++ [n % 16]

/-- The digits printf's `%X` prints for a `uint64_t` value: minimal length,
except that the value 0 prints one digit. -/
def hexRep (n : Nat) : List Nat :=
  if n = 0 then [0] else hexRepAux 16 n

/-- The digits printf's `%0*X` prints: zero-padded to a MINIMUM width, never
truncated (`fprintf(to, "%0*" PRIX64, (int)size * 2, …)` in
ir_operand_serialize). -/
def printf_hex (width n : Nat) : List Nat :=
  List.replicate (width - (hexRep n).length) 0 ++ hexRep n

/-- The value a digit list denotes. -/
def hexVal (ds : List Nat) : Nat :=
  ds.foldl (fun a d => 16 * a + d) 0

/-- The hex digits ir_operand_serialize prints for a non-Bool constant: for
byte size 16 the high half then the low half, each at width 16; otherwise the
low half at width `2 * size` (ir.c lines 56-61). -/
def ir_const_digits (p : IrPrim) (lo hi : Nat) : List Nat :=
  if ir_prim_sizes p = 16 then printf_hex 16 hi ++ printf_hex 16 lo
  else printf_hex (2 * ir_prim_sizes p) lo

/-- A hex digit as the uppercase character `%X` prints. -/
def hexDigitChar (d : Nat) : Char :=
  if d < 10 then Char.ofNat (48 + d) else Char.ofNat (55 + d)

/-- A digit list as the string printf prints. -/
def hexString (ds : List Nat) : String :=
  String.mk (ds.map hexDigitChar)

/-- The apostrophe character, written by code point to keep the source free of
quote-in-string pitfalls. -/
def tick : String := String.singleton (Char.ofNat 39)

/-- Modelled from the spec: the decimal rendering of the IEEE-754
reinterpretation of an f32/f64 payload (the `%f`/`%lf` of ir.c lines 62-70).
Floating-point decimal formatting is outside this integer model, so the
renderer is a parameter; the claims about constant serialization are
independent of it. -/
structure FloatFmt where
  f32 : Nat → String
  f64 : Nat → String

/-- The comment ir_operand_serialize appends after an f32 or f64 constant
(ir.c lines 62-70); empty for every other primitive. -/
def float_comment (fc : FloatFmt) (p : IrPrim) (lo : Nat) : String :=
  match p with
  | .f32 => " /* " ++ fc.f32 lo ++ " */"
  | .f64 => " /* " ++ fc.f64 lo ++ " */"
  | _ => ""

/-- The constant branch of `ir_operand_serialize` (ir.c lines 50-71): Bool
prints `true`/`false` by the truthiness of the low half; every other primitive
prints its name, an apostrophe, `0x`, the hex digits of `ir_const_digits`, and
for f32/f64 the reinterpretation comment. -/
def ir_const_serialize (fc : FloatFmt) (c : IrConst) : String :=
  if c.prim_type = .bool then
    (if c.constl ≠ 0 then "true" else "false")
  else
    ir_prim_names c.prim_type ++ tick ++ "0x"
      ++ hexString (ir_const_digits c.prim_type c.constl c.consth)
      ++ float_comment fc c.prim_type c.constl

/- ==================== the IR data model (ir_types.h as used by ir.c) ===== -/

/-- One combinator entry, `ir_combinator_t`: the predecessor block it selects
on and the operand it binds (ir.c stores an `ir_operand_t` bind, as
`e_combinator.from[i].bind.is_const` shows). -/
structure IrCombinator where
  prev : Nat
  bind : IrOperand
deriving DecidableEq, Repr

/-- The payload of an expression, `ir_expr_t`'s union discriminated by
`ir_expr_type_t`. -/
inductive IrExprKind where
  | combinator (froms : List IrCombinator)
  | unary (oper : IrOp1) (value : IrOperand)
  | binary (oper : IrOp2) (lhs rhs : IrOperand)
  | undefined
deriving DecidableEq, Repr

/-- The payload of a control-flow instruction, `ir_flow_t`'s union
discriminated by `ir_flow_type_t`. -/
inductive IrFlowKind where
  | jump (target : Nat)
  | branch (cond : IrOperand) (target : Nat)
  | call_direct (label : String) (args : List IrOperand)
  | call_ptr (addr : IrOperand) (args : List IrOperand)
  | ret (value : Option IrOperand)
deriving DecidableEq, Repr

/-- An instruction's payload: `is_expr` discriminates `ir_expr_t` (with its
destination variable) from `ir_flow_t`. -/
inductive IrInsnData where
  | expr (dest : Nat) (kind : IrExprKind)
  | flow (kind : IrFlowKind)
deriving DecidableEq, Repr

/-- An instruction record, `ir_insn_t`: parent code block plus payload. -/
structure IrInsn where
  parent : Nat
  data : IrInsnData
deriving DecidableEq, Repr

/-- A variable record, `ir_var_t` as ir.c uses it: name, primitive type, the
use-set `used_at` (instruction ids) and the assignment list `assigned_at`
(expression instruction ids, in order).  The parent-function pointer is left
implicit: every state holds one function. -/
structure IrVar where
  name : String
  prim_type : IrPrim
  used_at : List Nat
  assigned_at : List Nat
deriving DecidableEq, Repr

/-- A code block record, `ir_code_t` as ir.c uses it: name, instruction list
in program order, predecessor and successor sets, and the `visited` scratch
flag of the analyses.  (`dfs_index` is scratch of the dominance pass, which no
claim touches, and is omitted.) -/
structure IrCode where
  name : String
  insns : List Nat
  pred : List Nat
  succ : List Nat
  visited : Bool
deriving DecidableEq, Repr

/-- The function record, `ir_func_t`. -/
structure IrFuncRec where
  name : String
  args : List Nat
  entry : Nat
  code_list : List Nat
  vars_list : List Nat
  enforce_ssa : Bool
deriving DecidableEq, Repr

/-- A whole IR state: the function record plus the heap of variable, code and
instruction records, and the allocation counter. -/
structure IrState where
  func : IrFuncRec
  vars : List (Nat × IrVar)
  codes : List (Nat × IrCode)
  insns : List (Nat × IrInsn)
  next_id : Nat
deriving DecidableEq, Repr

/-- Process abort (`[BUG] …` on stderr followed by `abort()`) versus normal
completion. -/
inductive Res (α : Type) where
  | ok (a : α)
  | bug
deriving DecidableEq, Repr

def Res.isOk {α : Type} : Res α → Bool
  | .ok _ => true
  | .bug => false

/-- Bind for fueled, abortable computations: `none` is fuel exhaustion,
`some .bug` an abort. -/
def obind {α β : Type} (x : Option (Res α)) (f : α → Option (Res β)) :
    Option (Res β) :=
  match x with
  | none => none
  | some .bug => some .bug
  | some (.ok a) => f a

/-- Lift an Option-only (never aborting) computation into the fueled,
abortable shape. -/
def olift {α : Type} (x : Option α) : Option (Res α) :=
  x.map Res.ok

/-- Bind for abortable computations. -/
def rbind {α β : Type} (x : Res α) (f : α → Res β) : Res β :=
  match x with
  | .bug => .bug
  | .ok a => f a

/- ==================== container helpers ==================== -/

/-- Association-list lookup (the id → record heap). -/
def lookupA {α : Type} : List (Nat × α) → Nat → Option α
  | [], _ => none
  | (k, v) :: rest, k' => if k = k' then some v else lookupA rest k'

/-- Update the record at a key in place; no-op when the key is absent (in C
the mutation goes through a pointer that, in every state considered, is
valid — except where a comment says the C pointer is not an IR object). -/
def mapA {α : Type} (m : List (Nat × α)) (k : Nat) (f : α → α) :
    List (Nat × α) :=
  m.map (fun p => if p.1 = k then (p.1, f p.2) else p)

/-- Remove a key (free the record). -/
def removeA {α : Type} (m : List (Nat × α)) (k : Nat) : List (Nat × α) :=
  m.filter (fun p => p.1 ≠ k)

/-- `set_add`: insert if absent (pointer set, insertion order). -/
def set_add (s : List Nat) (x : Nat) : List Nat :=
  if x ∈ s then s else s ++ [x]

/-- `set_remove`. -/
def set_remove (s : List Nat) (x : Nat) : List Nat :=
  s.filter (fun y => y ≠ x)

/-- `set_addall`: union-in-place, iterating the second set. -/
def set_addall (s t : List Nat) : List Nat :=
  t.foldl set_add s

/- ==================== state accessors ==================== -/

def dfltVar : IrVar := ⟨"", .s32, [], []⟩

def dfltCode : IrCode := ⟨"", [], [], [], false⟩

def dfltInsn : IrInsn := ⟨0, .flow (.ret none)⟩

def dfltState : IrState := ⟨⟨"", [], 0, [], [], false⟩, [], [], [], 1⟩

def getVar? (st : IrState) (v : Nat) : Option IrVar := lookupA st.vars v

/-- Dereference a variable pointer.  C dereferences without checking; every
dereference reached in the states considered finds its record, so the default
is never consulted. -/
def getVarD (st : IrState) (v : Nat) : IrVar := (getVar? st v).getD dfltVar

def getCode? (st : IrState) (c : Nat) : Option IrCode := lookupA st.codes c

def getCodeD (st : IrState) (c : Nat) : IrCode := (getCode? st c).getD dfltCode

def getInsn? (st : IrState) (i : Nat) : Option IrInsn := lookupA st.insns i

def getInsnD (st : IrState) (i : Nat) : IrInsn := (getInsn? st i).getD dfltInsn

def modVar (st : IrState) (v : Nat) (f : IrVar → IrVar) : IrState :=
  { st with vars := mapA st.vars v f }

def modCode (st : IrState) (c : Nat) (f : IrCode → IrCode) : IrState :=
  { st with codes := mapA st.codes c f }

def modInsn (st : IrState) (i : Nat) (f : IrInsn → IrInsn) : IrState :=
  { st with insns := mapA st.insns i f }

/-- Allocate a fresh instruction record parented to block `c` (the `calloc`
plus `base.parent`/`is_expr` initialisation of the builders); the block's
instruction list is not yet touched. -/
def allocInsn (st : IrState) (c : Nat) (d : IrInsnData) : IrState × Nat :=
  ({ st with insns := st.insns ++ [(st.next_id, ⟨c, d⟩)],
             next_id := st.next_id + 1 }, st.next_id)

/-- The primitive type of an operand as the builders read it:
`o.is_const ? o.iconst.prim_type : o.var->prim_type`. -/
def operandPrim (st : IrState) (o : IrOperand) : IrPrim :=
  match o with
  | .const k => k.prim_type
  | .var v => (getVarD st v).prim_type

/-- Add instruction `i` to the use-set of the operand's variable when the
operand is not a constant (`if (!x.is_const) set_add(&x.var->used_at, …)`). -/
def addUse (st : IrState) (o : IrOperand) (i : Nat) : IrState :=
  match o with
  | .const _ => st
  | .var v => modVar st v (fun r => { r with used_at := set_add r.used_at i })

/-- Remove instruction `i` from the use-set of the operand's variable when the
operand is not a constant. -/
def removeUse (st : IrState) (o : IrOperand) (i : Nat) : IrState :=
  match o with
  | .const _ => st
  | .var v => modVar st v (fun r => { r with used_at := set_remove r.used_at i })

/-- The `is_const` discriminator of `ir_operand_t`. -/
def IrOperand.is_const : IrOperand → Bool
  | .const _ => true
  | .var _ => false

/- ==================== construction (ir.c) ==================== -/

/-- `ir_var_create` (ir.c lines 562-578): allocate a variable; an omitted name
becomes the decimal rendering of the current variable count; the variable is
appended to `func->vars_list`. -/
def ir_var_create (st : IrState) (ty : IrPrim) (name : Option String) :
    IrState × Nat :=
  let id := st.next_id
  let nm := match name with
    | some n => n
    | none => toString st.func.vars_list.length
  ({ st with vars := st.vars ++ [(id, ⟨nm, ty, [], []⟩)],
             func := { st.func with vars_list := st.func.vars_list ++ [id] },
             next_id := id + 1 }, id)

/-- `ir_code_create` (ir.c lines 676-692). -/
def ir_code_create (st : IrState) (name : Option String) : IrState × Nat :=
  let id := st.next_id
  let nm := match name with
    | some n => n
    | none => toString st.func.code_list.length
  ({ st with codes := st.codes ++ [(id, ⟨nm, [], [], [], false⟩)],
             func := { st.func with code_list := st.func.code_list ++ [id] },
             next_id := id + 1 }, id)

/-- `ir_func_create` (ir.c lines 19-29): the parameters (each an S32 variable)
then the entry block. -/
def ir_func_create (name entry_name : String) (args_name : List String) :
    IrState :=
  let st0 : IrState := ⟨⟨name, [], 0, [], [], false⟩, [], [], [], 1⟩
  let st1 := args_name.foldl
    (fun st an =>
      let p := ir_var_create st .s32 (some an)
      { p.1 with func := { p.1.func with args := p.1.func.args ++ [p.2] } })
    st0
  let p := ir_code_create st1 (some entry_name)
  { p.1 with func := { p.1.func with entry := p.2 } }

/- ==================== flow recomputation ==================== -/

/-- Reading `flow->f_jump.target` on a flow instruction (ir.c lines 550 and
723 do this for branches as well as jumps).  ir_types.h declares `f_branch`
with the condition field first and the target second, so the union bytes that
`f_jump.target` overlays hold (part of) the condition, not the branch target;
reinterpreted as a code-block pointer that value is not any block of the
function.  The model returns the reserved non-block id 0 for it.  For flow
kinds other than jump and branch the read is never reached (it is guarded by
the flow-type test at both call sites). -/
def punTargetRead : IrFlowKind → Nat
  | .jump t => t
  | _ => 0

/-- `ir_func_recalc_flow` (ir.c lines 538-555): clear every block's pred/succ
sets, then for each jump or branch terminator insert the (block, target) pair
into both sets — where "target" is the `f_jump.target` union read.  For a
branch, `set_add(&flow->f_jump.target->pred, code)` writes through the
reinterpreted condition field; that pointer is not a code block, so no block's
predecessor set changes (the model's update at the reserved id 0 finds no
record), while `set_add(&code->succ, flow->f_jump.target)` stores the
non-block value in the successor set. -/
def ir_func_recalc_flow (st : IrState) : IrState :=
  let st1 := st.func.code_list.foldl
    (fun s c => modCode s c (fun k => { k with pred := [], succ := [] })) st
  st1.func.code_list.foldl
    (fun s c =>
      (getCodeD s c).insns.foldl
        (fun s2 i =>
          match (getInsnD s2 i).data with
          | .flow fk =>
            match fk with
            | .jump _ | .branch _ _ =>
              let tgt := punTargetRead fk
              let s3 := modCode s2 tgt
                (fun k => { k with pred := set_add k.pred c })
              modCode s3 c (fun k => { k with succ := set_add k.succ tgt })
            | _ => s2
          | _ => s2)
        s)
    st1

/- ==================== deletion (ir.c) ==================== -/

/-- `ir_insn_delete` (ir.c lines 758-806).  For an expression: unlink from the
destination's assignment list, then drop the operand uses per kind.  For a
flow: drop the branch condition use, the return value use, and every non-const
call argument use; for a call-by-pointer the source tests
`flow->f_call_ptr.addr.is_const` (not its negation), so the use-set entry of a
VARIABLE address operand is never removed, and for a constant address the
`set_remove` goes through the constant's bytes reinterpreted as a variable
pointer, which is no variable of the function (no record changes).  Finally
the instruction is unlinked from its parent block and freed. -/
def ir_insn_delete (st : IrState) (i : Nat) : IrState :=
  let insn := getInsnD st i
  let st1 :=
    match insn.data with
    | .expr dest kind =>
      let s := modVar st dest
        (fun r => { r with assigned_at := r.assigned_at.erase i })
      match kind with
      | .unary _ value => removeUse s value i
      | .binary _ lhs rhs => removeUse (removeUse s lhs i) rhs i
      | .combinator froms =>
        froms.foldl (fun s2 cb => removeUse s2 cb.bind i) s
      | .undefined => s
    | .flow kind =>
      match kind with
      | .branch cond _ => removeUse st cond i
      | .ret value =>
        match value with
        | some v => removeUse st v i
        | none => st
      | .call_direct _ args => args.foldl (fun s a => removeUse s a i) st
      | .call_ptr _ args => args.foldl (fun s a => removeUse s a i) st
      | .jump _ => st
  let st2 := modCode st1 insn.parent
    (fun k => { k with insns := k.insns.erase i })
  { st2 with insns := removeA st2.insns i }

/-- `ir_var_delete` (ir.c lines 581-595): collect `used_at` and the
assignment list into one working set, delete each instruction in it, then
unlink and free the variable. -/
def ir_var_delete (st : IrState) (v : Nat) : IrState :=
  let todel := set_addall [] (getVarD st v).used_at
  let todel2 := (getVarD st v).assigned_at.foldl set_add todel
  let st1 := todel2.foldl ir_insn_delete st
  let st2 := { st1 with
    func := { st1.func with vars_list := st1.func.vars_list.erase v } }
  { st2 with vars := removeA st2.vars v }

/-- One iteration of `ir_var_replace`'s use-set walk (ir.c lines 604-669),
acting on instruction `i`.  A unary expression's operand is overwritten
unconditionally; binary operands, combinator binds and the branch condition
are overwritten only when they name `v`; but EVERY non-constant call argument
and every non-constant return value is overwritten, whether or not it names
`v` (the source tests only `!args[i].is_const` / `!value.is_const`). -/
def var_replace_insn (st : IrState) (v : Nat) (value : IrOperand) (i : Nat) :
    IrState :=
  match (getInsnD st i).data with
  | .expr dest kind =>
    match kind with
    | .unary oper _ =>
      let s := modInsn st i
        (fun r => { r with data := .expr dest (.unary oper value) })
      addUse s value i
    | .binary oper lhs rhs =>
      let s1 := if lhs = .var v then addUse st value i else st
      let s2 := if rhs = .var v then addUse s1 value i else s1
      let lhs2 := if lhs = .var v then value else lhs
      let rhs2 := if rhs = .var v then value else rhs
      modInsn s2 i
        (fun r => { r with data := .expr dest (.binary oper lhs2 rhs2) })
    | .combinator froms =>
      let s1 := froms.foldl
        (fun s cb => if cb.bind = .var v then addUse s value i else s) st
      let froms2 := froms.map
        (fun cb => if cb.bind = .var v then { cb with bind := value } else cb)
      modInsn s1 i
        (fun r => { r with data := .expr dest (.combinator froms2) })
    | .undefined => st
  | .flow kind =>
    match kind with
    | .branch cond tgt =>
      if cond = .var v then
        let s := modInsn st i
          (fun r => { r with data := .flow (.branch value tgt) })
        addUse s value i
      else st
    | .call_ptr addr args =>
      let s1 := if addr = .var v then addUse st value i else st
      let addr2 := if addr = .var v then value else addr
      let s2 := args.foldl
        (fun s a => if a.is_const then s else addUse s value i) s1
      let args2 := args.map (fun a => if a.is_const then a else value)
      modInsn s2 i
        (fun r => { r with data := .flow (.call_ptr addr2 args2) })
    | .call_direct lbl args =>
      let s1 := args.foldl
        (fun s a => if a.is_const then s else addUse s value i) st
      let args2 := args.map (fun a => if a.is_const then a else value)
      modInsn s1 i
        (fun r => { r with data := .flow (.call_direct lbl args2) })
    | .ret value0 =>
      match value0 with
      | some old =>
        if old.is_const then st
        else
          let s := modInsn st i
            (fun r => { r with data := .flow (.ret (some value)) })
          addUse s value i
      | none => st
    | .jump _ => st

/-- `ir_var_replace` (ir.c lines 599-671): abort on self-replacement, rewrite
every instruction of `v`'s use-set via `var_replace_insn`, then clear the
use-set. -/
def ir_var_replace (st : IrState) (v : Nat) (value : IrOperand) :
    Res IrState :=
  if value = .var v then .bug
  else
    let st1 := (getVarD st v).used_at.foldl
      (fun s i => var_replace_insn s v value i) st
    .ok (modVar st1 v (fun r => { r with used_at := [] }))

/-- The entry-removal loop of `remove_combinator_path` (ir.c lines 696-705):
find the first entry whose predecessor is `c`, drop the use its bind holds if
the bind is a variable, and remove the entry (`break` after the first hit). -/
def rcp_scan (st : IrState) (i c : Nat) :
    List IrCombinator → IrState × List IrCombinator
  | [] => (st, [])
  | cb :: rest =>
    if cb.prev = c then (removeUse st cb.bind i, rest)
    else
      let p := rcp_scan st i c rest
      (p.1, cb :: p.2)

/-- `remove_combinator_path` (ir.c lines 695-710): remove the entry for the
deleted predecessor; when the arity has dropped to 1, replace the destination
by the sole remaining bind throughout the function and delete the combinator
(the replace aborts if the bind names the destination itself). -/
def remove_combinator_path (st : IrState) (i c : Nat) : Res IrState :=
  match (getInsnD st i).data with
  | .expr dest (.combinator froms) =>
    let p := rcp_scan st i c froms
    let st2 := modInsn p.1 i
      (fun r => { r with data := .expr dest (.combinator p.2) })
    if p.2.length = 1 then
      rbind (ir_var_replace st2 dest
          ((p.2.headD ⟨0, .const ⟨.s32, 0, 0⟩⟩).bind))
        (fun st3 => .ok (ir_insn_delete st3 i))
    else .ok st2
  | _ => .ok st

/-- `ir_code_delete` (ir.c lines 713-755): for each predecessor, unlink and
delete its jump/branch terminators whose `f_jump.target` union read equals
this block (for a branch that read yields the reinterpreted condition, never a
block, so branch terminators survive); for each successor, unlink and update
its combinators; then delete every instruction and free the block. -/
def ir_code_delete (st : IrState) (c : Nat) : Res IrState :=
  let code := getCodeD st c
  let st1 := code.pred.foldl
    (fun s p =>
      let s1 := modCode s p (fun k => { k with succ := set_remove k.succ c })
      (getCodeD s1 p).insns.foldl
        (fun s2 i =>
          match (getInsnD s2 i).data with
          | .flow fk =>
            match fk with
            | .jump _ | .branch _ _ =>
              if punTargetRead fk = c then ir_insn_delete s2 i else s2
            | _ => s2
          | _ => s2)
        s1)
    st
  let afterSucc := code.succ.foldl
    (fun racc sc => rbind racc (fun s =>
      let s1 := modCode s sc (fun k => { k with pred := set_remove k.pred c })
      (getCodeD s1 sc).insns.foldl
        (fun racc2 i => rbind racc2 (fun s2 =>
          match (getInsnD s2 i).data with
          | .expr _ (.combinator _) => remove_combinator_path s2 i c
          | _ => .ok s2))
        (.ok s1)))
    (.ok st1)
  rbind afterSucc (fun st2 =>
    let st3 := (getCodeD st2 c).insns.foldl ir_insn_delete st2
    let st4 := { st3 with
      func := { st3.func with code_list := st3.func.code_list.erase c } }
    .ok { st4 with codes := removeA st4.codes c })

/- ==================== SSA conversion pieces (ir.c) ==================== -/

/-- `create_combinator` (ir.c lines 304-330): prepend to `code` a combinator
assigning `dest`, with one entry per predecessor whose initial bind is the
placeholder constant 0 of `dest`'s primitive type.  The per-predecessor loop
does `set_add(&dest->used_at, expr)` even though the entry binds a constant,
not `dest`; the model performs the same adds. -/
def create_combinator (st : IrState) (c dest : Nat) : IrState :=
  let preds := (getCodeD st c).pred
  let froms : List IrCombinator := preds.map
    (fun p => ⟨p, .const ⟨(getVarD st dest).prim_type, 0, 0⟩⟩)
  let p := allocInsn st c (.expr dest (.combinator froms))
  let st2 := preds.foldl
    (fun s _ => modVar s dest
      (fun r => { r with used_at := set_add r.used_at p.2 }))
    p.1
  let st3 := modVar st2 dest
    (fun r => { r with assigned_at := r.assigned_at ++ [p.2] })
  modCode st3 c (fun k => { k with insns := p.2 :: k.insns })

/-- `replace_insn_var` (ir.c lines 396-442): remove the instruction from
`vfrom`'s use-set, then rewrite the read positions that name `vfrom` to `to?`
— binary and unary operands, the branch condition, the return value, the
call-by-pointer address and the call arguments; combinator binds are left to
`replace_phi_vars`.  When `to?` is still undefined (NULL) a matching read
would make the C dereference NULL; no considered execution reads the variable
before its first definition, so the model leaves such a position unchanged. -/
def replace_insn_var (st : IrState) (i vfrom : Nat) (to? : Option Nat) :
    IrState :=
  let st0 := modVar st vfrom
    (fun r => { r with used_at := set_remove r.used_at i })
  match to? with
  | none => st0
  | some t =>
    match (getInsnD st0 i).data with
    | .expr dest kind =>
      match kind with
      | .binary oper lhs rhs =>
        let s1 := if lhs = .var vfrom then addUse st0 (.var t) i else st0
        let s2 := if rhs = .var vfrom then addUse s1 (.var t) i else s1
        let lhs2 := if lhs = .var vfrom then IrOperand.var t else lhs
        let rhs2 := if rhs = .var vfrom then IrOperand.var t else rhs
        modInsn s2 i
          (fun r => { r with data := .expr dest (.binary oper lhs2 rhs2) })
      | .unary oper value =>
        if value = .var vfrom then
          let s := addUse st0 (.var t) i
          modInsn s i
            (fun r => { r with data := .expr dest (.unary oper (.var t)) })
        else st0
      | _ => st0
    | .flow kind =>
      match kind with
      | .branch cond tgt =>
        if cond = .var vfrom then
          let s := addUse st0 (.var t) i
          modInsn s i
            (fun r => { r with data := .flow (.branch (.var t) tgt) })
        else st0
      | .ret value0 =>
        match value0 with
        | some old =>
          if old = .var vfrom then
            let s := addUse st0 (.var t) i
            modInsn s i
              (fun r => { r with data := .flow (.ret (some (.var t))) })
          else st0
        | none => st0
      | .call_ptr addr args =>
        let s1 := if addr = .var vfrom then addUse st0 (.var t) i else st0
        let addr2 := if addr = .var vfrom then IrOperand.var t else addr
        let s2 := args.foldl
          (fun s a => if a = .var vfrom then addUse s (.var t) i else s) s1
        let args2 := args.map
          (fun a => if a = .var vfrom then IrOperand.var t else a)
        modInsn s2 i
          (fun r => { r with data := .flow (.call_ptr addr2 args2) })
      | .call_direct lbl args =>
        let s1 := args.foldl
          (fun s a => if a = .var vfrom then addUse s (.var t) i else s) st0
        let args2 := args.map
          (fun a => if a = .var vfrom then IrOperand.var t else a)
        modInsn s1 i
          (fun r => { r with data := .flow (.call_direct lbl args2) })
      | .jump _ => st0

/-- The instruction walk of `replace_phi_vars` (ir.c lines 446-463): stop at
the first instruction that is not a combinator expression; at the first
combinator whose destination is in the `from` set, rewrite the entries whose
predecessor is `p` AND whose bind is not a constant to the variable `t`, then
stop.  The placeholder constant binds inserted at phi placement fail the
`!bind.is_const` test and are left as constant 0 (the source then stores
`is_const = false` into a field that is already false). -/
def replace_phi_vars_go (st : IrState) (p : Nat) (froms : List Nat) (t : Nat) :
    List Nat → IrState
  | [] => st
  | i :: rest =>
    match (getInsnD st i).data with
    | .expr dest (.combinator binds) =>
      if dest ∈ froms then
        let hit := fun (cb : IrCombinator) => cb.prev = p ∧ cb.bind.is_const = false
        let st1 := if binds.any (fun cb => decide (hit cb)) then
            modVar st t (fun r => { r with used_at := set_add r.used_at i })
          else st
        let binds2 := binds.map
          (fun cb => if hit cb then { cb with bind := IrOperand.var t } else cb)
        modInsn st1 i
          (fun r => { r with data := .expr dest (.combinator binds2) })
      else replace_phi_vars_go st p froms t rest
    | .expr _ _ => st
    | .flow _ => st

/-- `replace_phi_vars` (ir.c lines 445-464). -/
def replace_phi_vars (st : IrState) (p c : Nat) (froms : List Nat) (t : Nat) :
    IrState :=
  replace_phi_vars_go st p froms t (getCodeD st c).insns

/-- `rename_assignments` (ir.c lines 467-497): the SSA rename walk, one DFS
per original variable.  For every instruction of an unvisited block it first
rewrites reads via `replace_insn_var`, then, if the instruction assigns
`vfrom`, moves the assignment onto a freshly created variable which becomes
the new current name; a renamed combinator's fresh name is added to the shared
`phi_from` set.  After the block, if a current name exists, combinator entries
in every successor are rewritten via `replace_phi_vars`, and the walk recurses
into the successors (threading the shared `phi_from` set).  The recursion is
fueled; `none` is fuel exhaustion. -/
def rename_assignments : Nat → IrState → Nat → Nat → Option Nat → List Nat →
    Option (IrState × List Nat)
  | 0, _, _, _, _, _ => none
  | fuel + 1, st, c, vfrom, to?, phiFrom =>
    if (getCodeD st c).visited then some (st, phiFrom)
    else
      let st1 := modCode st c (fun k => { k with visited := true })
      let step := fun (acc : IrState × Option Nat × List Nat) (i : Nat) =>
        let s1 := replace_insn_var acc.1 i vfrom acc.2.1
        match (getInsnD s1 i).data with
        | .expr dest kind =>
          if dest = vfrom then
            let s2 := modVar s1 vfrom
              (fun r => { r with assigned_at := r.assigned_at.erase i })
            let p := ir_var_create s2 (getVarD s2 vfrom).prim_type none
            let s4 := modInsn p.1 i
              (fun r => { r with data := .expr p.2 kind })
            let s5 := modVar s4 p.2
              (fun r => { r with assigned_at := r.assigned_at ++ [i] })
            let pf2 := match kind with
              | .combinator _ => set_add acc.2.2 p.2
              | _ => acc.2.2
            (s5, some p.2, pf2)
          else (s1, acc.2.1, acc.2.2)
        | .flow _ => (s1, acc.2.1, acc.2.2)
      let r2 := (getCodeD st1 c).insns.foldl step (st1, to?, phiFrom)
      let st3 := match r2.2.1 with
        | some t => (getCodeD r2.1 c).succ.foldl
            (fun s sc => replace_phi_vars s c sc r2.2.2 t) r2.1
        | none => r2.1
      (getCodeD st3 c).succ.foldl
        (fun acc sc =>
          match acc with
          | none => none
          | some (s, pf) => rename_assignments fuel s sc vfrom r2.2.1 pf)
        (some (st3, r2.2.2))

/- ==================== builders (ir.c lines 812-1086) ==================== -/

/-- The terminator-ordering test every builder except `ir_add_jump` and
`ir_add_branch` performs: true when the block's last instruction is a jump or
branch flow (the `[BUG] Cannot have … after jump or branch` abort). -/
def block_ends_in_terminator (st : IrState) (c : Nat) : Bool :=
  match (getCodeD st c).insns.getLast? with
  | none => false
  | some i =>
    match (getInsnD st i).data with
    | .flow (.jump _) => true
    | .flow (.branch _ _) => true
    | _ => false

/-- The SSA-discipline test of the expression builders:
`dest->assigned_at.len && code->func->enforce_ssa`. -/
def ssa_second_assignment (st : IrState) (dest : Nat) : Bool :=
  !(getVarD st dest).assigned_at.isEmpty && st.func.enforce_ssa

/-- Append an instruction id to a block's instruction list. -/
def appendInsn (st : IrState) (c i : Nat) : IrState :=
  modCode st c (fun k => { k with insns := k.insns ++ [i] })

/-- Register an expression id as the destination's latest assignment. -/
def appendAssign (st : IrState) (dest i : Nat) : IrState :=
  modVar st dest (fun r => { r with assigned_at := r.assigned_at ++ [i] })

/-- `ir_add_combinator` (ir.c lines 812-846): aborts after a terminator, on a
second SSA assignment, and on an entry whose bind type differs from the
destination's; otherwise registers each variable bind in its use-set and
appends. -/
def ir_add_combinator (st : IrState) (c dest : Nat)
    (froms : List IrCombinator) : Res IrState :=
  if block_ends_in_terminator st c then .bug
  else if ssa_second_assignment st dest then .bug
  else if froms.any
      (fun cb => operandPrim st cb.bind ≠ (getVarD st dest).prim_type) then
    .bug
  else
    let p := allocInsn st c (.expr dest (.combinator froms))
    let st2 := froms.foldl (fun s cb => addUse s cb.bind p.2) p.1
    .ok (appendInsn (appendAssign st2 dest p.2) c p.2)

/-- `ir_add_expr1` (ir.c lines 849-888): aborts after a terminator; `seqz` and
`snez` require a Bool destination; every operator other than those and `mov`
requires operand and destination of one type; aborts on a second SSA
assignment. -/
def ir_add_expr1 (st : IrState) (c dest : Nat) (oper : IrOp1)
    (operand : IrOperand) : Res IrState :=
  if block_ends_in_terminator st c then .bug
  else if (oper = .snez ∨ oper = .seqz) ∧
      (getVarD st dest).prim_type ≠ .bool then .bug
  else if oper ≠ .mov ∧ oper ≠ .snez ∧ oper ≠ .seqz ∧
      operandPrim st operand ≠ (getVarD st dest).prim_type then .bug
  else if ssa_second_assignment st dest then .bug
  else
    let p := allocInsn st c (.expr dest (.unary oper operand))
    let st2 := addUse p.1 operand p.2
    .ok (appendInsn (appendAssign st2 dest p.2) c p.2)

/-- `ir_add_expr2` (ir.c lines 891-932). -/
def ir_add_expr2 (st : IrState) (c dest : Nat) (oper : IrOp2)
    (lhs rhs : IrOperand) : Res IrState :=
  if block_ends_in_terminator st c then .bug
  else if operandPrim st lhs ≠ (getVarD st dest).prim_type then .bug
  else if operandPrim st rhs ≠ (getVarD st dest).prim_type then .bug
  else if ssa_second_assignment st dest then .bug
  else
    let p := allocInsn st c (.expr dest (.binary oper lhs rhs))
    let st2 := addUse (addUse p.1 lhs p.2) rhs p.2
    .ok (appendInsn (appendAssign st2 dest p.2) c p.2)

/-- `ir_add_undefined` (ir.c lines 935-957). -/
def ir_add_undefined (st : IrState) (c dest : Nat) : Res IrState :=
  if block_ends_in_terminator st c then .bug
  else if ssa_second_assignment st dest then .bug
  else
    let p := allocInsn st c (.expr dest .undefined)
    .ok (appendInsn (appendAssign p.1 dest p.2) c p.2)

/-- `ir_add_call_direct` (ir.c lines 961-984). -/
def ir_add_call_direct (st : IrState) (c : Nat) (label : String)
    (params : List IrOperand) : Res IrState :=
  if block_ends_in_terminator st c then .bug
  else
    let p := allocInsn st c (.flow (.call_direct label params))
    let st2 := params.foldl (fun s a => addUse s a p.2) p.1
    .ok (appendInsn st2 c p.2)

/-- `ir_add_call_ptr` (ir.c lines 988-1014). -/
def ir_add_call_ptr (st : IrState) (c : Nat) (funcptr : IrOperand)
    (params : List IrOperand) : Res IrState :=
  if block_ends_in_terminator st c then .bug
  else
    let p := allocInsn st c (.flow (.call_ptr funcptr params))
    let st2 := addUse p.1 funcptr p.2
    let st3 := params.foldl (fun s a => addUse s a p.2) st2
    .ok (appendInsn st3 c p.2)

/-- `ir_add_jump` (ir.c lines 1017-1025): NO terminator-ordering test and no
other test; immediately maintains the pred/succ sets of both endpoints and
appends. -/
def ir_add_jump (st : IrState) (c t : Nat) : IrState :=
  let p := allocInsn st c (.flow (.jump t))
  let st2 := modCode p.1 c (fun k => { k with succ := set_add k.succ t })
  let st3 := modCode st2 t (fun k => { k with pred := set_add k.pred c })
  appendInsn st3 c p.2

/-- `ir_add_branch` (ir.c lines 1028-1045): NO terminator-ordering test; the
only abort is a non-Bool condition; maintains pred/succ and appends. -/
def ir_add_branch (st : IrState) (c : Nat) (cond : IrOperand) (t : Nat) :
    Res IrState :=
  if operandPrim st cond ≠ .bool then .bug
  else
    let p := allocInsn st c (.flow (.branch cond t))
    let st2 := addUse p.1 cond p.2
    let st3 := modCode st2 c (fun k => { k with succ := set_add k.succ t })
    let st4 := modCode st3 t (fun k => { k with pred := set_add k.pred c })
    .ok (appendInsn st4 c p.2)

/-- `ir_add_return0` (ir.c lines 1048-1063): aborts after a terminator. -/
def ir_add_return0 (st : IrState) (c : Nat) : Res IrState :=
  if block_ends_in_terminator st c then .bug
  else
    let p := allocInsn st c (.flow (.ret none))
    .ok (appendInsn p.1 c p.2)

/-- `ir_add_return1` (ir.c lines 1066-1086). -/
def ir_add_return1 (st : IrState) (c : Nat) (value : IrOperand) :
    Res IrState :=
  if block_ends_in_terminator st c then .bug
  else
    let p := allocInsn st c (.flow (.ret (some value)))
    let st2 := addUse p.1 value p.2
    .ok (appendInsn st2 c p.2)

/- ==================== the optimizer (opt.c) ==================== -/

/-- Modelled from the spec: the pure constant evaluators `ir_cast`,
`ir_calc1` and `ir_calc2` of ir/interp.c, which is not among the repository's
staged files (§4.5: "pure functions on `Const` values, typed, width-aware
two's-complement and IEEE-754 semantics").  The optimizer passes take them as
a parameter; the executions the theorems below evaluate never reach a
constant-foldable expression, so every result about them holds for every
instance. -/
structure IrCalc where
  cast : IrPrim → IrConst → IrConst
  calc1 : IrOp1 → IrConst → IrConst
  calc2 : IrOp2 → IrConst → IrConst → IrConst

/-- `opt_unused_vars` (opt.c lines 31-47): scan the variable list, deleting
every variable whose use-set is empty; rescan until a pass deletes nothing.
Returns whether anything was deleted.  The scan does NOT exempt the function's
parameters.  (The `none` branch of the lookup is unreachable: only the node
being visited is ever unlinked during a scan.) -/
def opt_unused_vars : Nat → IrState → Option (IrState × Bool)
  | 0, _ => none
  | fuel + 1, st =>
    let r := st.func.vars_list.foldl
      (fun (acc : IrState × Bool) v =>
        match getVar? acc.1 v with
        | none => acc
        | some rec0 =>
          if rec0.used_at.isEmpty then (ir_var_delete acc.1 v, true) else acc)
      (st, false)
    if r.2 then
      match opt_unused_vars fuel r.1 with
      | none => none
      | some (st2, _) => some (st2, true)
    else some (r.1, false)

/-- `const_prop_expr` (opt.c lines 132-151): a unary expression with constant
operand folds through `ir_cast` (for mov) or `ir_calc1`; a binary expression
with two constant operands folds through `ir_calc2`; the destination is then
replaced by the constant everywhere and deleted. -/
def const_prop_expr (ic : IrCalc) (st : IrState) (i : Nat) :
    Res (IrState × Bool) :=
  match (getInsnD st i).data with
  | .expr dest (.unary oper (.const k)) =>
    let k2 := if oper = .mov then ic.cast (getVarD st dest).prim_type k
      else ic.calc1 oper k
    rbind (ir_var_replace st dest (.const k2))
      (fun s => .ok (ir_var_delete s dest, true))
  | .expr dest (.binary oper (.const a) (.const b)) =>
    rbind (ir_var_replace st dest (.const (ic.calc2 oper a b)))
      (fun s => .ok (ir_var_delete s dest, true))
  | _ => .ok (st, false)

/-- `opt_const_prop` (opt.c lines 155-172): for every variable with exactly
one assignment, try to fold that assignment; rescan until a scan folds
nothing. -/
def opt_const_prop : Nat → IrCalc → IrState → Option (Res (IrState × Bool))
  | 0, _, _ => none
  | fuel + 1, ic, st =>
    let r := st.func.vars_list.foldl
      (fun (racc : Res (IrState × Bool)) v => rbind racc (fun acc =>
        match getVar? acc.1 v with
        | none => .ok acc
        | some rec0 =>
          if rec0.assigned_at.length = 1 then
            rbind (const_prop_expr ic acc.1 (rec0.assigned_at.headD 0))
              (fun p => .ok (p.1, acc.2 || p.2))
          else .ok acc))
      (.ok (st, false))
    match r with
    | .bug => some .bug
    | .ok (st1, loopb) =>
      if loopb then
        obind (opt_const_prop fuel ic st1)
          (fun p => some (.ok (p.1, true)))
      else some (.ok (st1, false))

/-- `dead_code_dfs` (opt.c lines 53-97): mark the block visited and walk its
instructions; after a jump (recursing into its target), a return, or a branch
with constant true condition (recursing into its target), every following
instruction is deleted and reported as a change; a branch with constant false
condition is deleted WITHOUT touching the change flag; a branch on a variable
recurses into its target. -/
def dead_code_dfs : Nat → IrState → Nat → Option (IrState × Bool)
  | 0, _, _ => none
  | fuel + 1, st, c =>
    if (getCodeD st c).visited then some (st, false)
    else
      let st1 := modCode st c (fun k => { k with visited := true })
      let r := (getCodeD st1 c).insns.foldl
        (fun (acc : Option (IrState × Bool × Bool)) i =>
          match acc with
          | none => none
          | some (s, dead, changed) =>
            if dead then some (ir_insn_delete s i, dead, true)
            else
              match (getInsnD s i).data with
              | .expr _ _ => some (s, dead, changed)
              | .flow fk =>
                match fk with
                | .jump t =>
                  match dead_code_dfs fuel s t with
                  | none => none
                  | some (s2, ch2) => some (s2, true, changed || ch2)
                | .ret _ => some (s, true, changed)
                | .branch cond t =>
                  match cond with
                  | .const k =>
                    if k.constl % 2 = 1 then
                      match dead_code_dfs fuel s t with
                      | none => none
                      | some (s2, ch2) => some (s2, true, changed || ch2)
                    else some (ir_insn_delete s i, dead, changed)
                  | .var _ =>
                    match dead_code_dfs fuel s t with
                    | none => none
                    | some (s2, ch2) => some (s2, dead, changed || ch2)
                | .call_direct _ _ => some (s, dead, changed)
                | .call_ptr _ _ => some (s, dead, changed))
        (some (st1, false, false))
      match r with
      | none => none
      | some (s, _, changed) => some (s, changed)

/-- `opt_dead_code` (opt.c lines 101-127): clear the visited marks, walk from
the head of the code list, delete every unvisited block (NOT reported as a
change), recalculate the flow, and repeat while the walk reported a change. -/
def opt_dead_code : Nat → IrState → Option (Res (IrState × Bool))
  | 0, _ => none
  | fuel + 1, st =>
    let st1 := st.func.code_list.foldl
      (fun s c => modCode s c (fun k => { k with visited := false })) st
    match dead_code_dfs fuel st1 (st1.func.code_list.headD 0) with
    | none => none
    | some (st2, loopb) =>
      let del := st2.func.code_list.foldl
        (fun (racc : Res IrState) c => rbind racc (fun s =>
          if (getCodeD s c).visited then .ok s else ir_code_delete s c))
        (.ok st2)
      match del with
      | .bug => some .bug
      | .ok st3 =>
        let st4 := ir_func_recalc_flow st3
        if loopb then
          obind (opt_dead_code fuel st4) (fun p => some (.ok (p.1, true)))
        else some (.ok (st4, false))

/-- `merge_code` (opt.c lines 177-199): delete the trailing jump of `first`,
reparent and concatenate the instructions of `second`, transfer the successor
links, and delete the now empty `second`. -/
def merge_code (st : IrState) (first second : Nat) : Res IrState :=
  let st1 := ir_insn_delete st ((getCodeD st first).insns.getLastD 0)
  let st2 := (getCodeD st1 second).insns.foldl
    (fun s i => modInsn s i (fun r => { r with parent := first })) st1
  let secondInsns := (getCodeD st2 second).insns
  let st3 := modCode st2 first
    (fun k => { k with insns := k.insns ++ secondInsns })
  let st4 := modCode st3 second (fun k => { k with insns := [] })
  let st5 := (getCodeD st4 second).succ.foldl
    (fun s sc => modCode s sc
      (fun k => { k with pred := set_add (set_remove k.pred second) first }))
    st4
  let secondSucc := (getCodeD st5 second).succ
  let st6 := modCode st5 first (fun k => { k with succ := secondSucc })
  let st7 := modCode st6 second (fun k => { k with pred := [], succ := [] })
  ir_code_delete st7 second

/-- The `while (code->succ.len == 1)` loop of `branch_opt_dfs` (opt.c lines
210-217): when the single successor has exactly one predecessor the two
blocks are merged; OTHERWISE THE BODY CHANGES NOTHING and the `while` retests
the same condition, so the loop spins.  The fuel argument makes that spin a
`none` result at every fuel. -/
def branch_while : Nat → IrState → Nat → Bool → Option (Res (IrState × Bool))
  | 0, _, _, _ => none
  | fuel + 1, st, c, changed =>
    if (getCodeD st c).succ.length = 1 then
      let s := (getCodeD st c).succ.headD 0
      if (getCodeD st s).pred.length = 1 then
        match merge_code st c s with
        | .bug => some .bug
        | .ok st2 => branch_while fuel st2 c true
      else branch_while fuel st c changed
    else some (.ok (st, changed))

/-- `branch_opt_dfs` (opt.c lines 203-225): visit the block once, run the
merge loop, then recurse into the (current) successors. -/
def branch_opt_dfs : Nat → IrState → Nat → Option (Res (IrState × Bool))
  | 0, _, _ => none
  | fuel + 1, st, c =>
    if (getCodeD st c).visited then some (.ok (st, false))
    else
      let st1 := modCode st c (fun k => { k with visited := true })
      obind (branch_while fuel st1 c false) (fun p =>
        (getCodeD p.1 c).succ.foldl
          (fun acc sc => obind acc (fun q =>
            obind (branch_opt_dfs fuel q.1 sc)
              (fun q2 => some (.ok (q2.1, q.2 || q2.2)))))
          (some (.ok (p.1, p.2))))

/-- `opt_branches` (opt.c lines 229-234): clear the visited marks and walk
from the head of the code list. -/
def opt_branches (fuel : Nat) (st : IrState) : Option (Res (IrState × Bool)) :=
  let st1 := st.func.code_list.foldl
    (fun s c => modCode s c (fun k => { k with visited := false })) st
  branch_opt_dfs fuel st1 (st1.func.code_list.headD 0)

/-- `optimize` (opt.c lines 14-25): run the four passes in order, repeating
while any of them reported a change; return whether any iteration changed
anything. -/
def optimize : Nat → IrCalc → IrState → Option (Res (IrState × Bool))
  | 0, _, _ => none
  | fuel + 1, ic, st =>
    obind (olift (opt_unused_vars fuel st)) (fun p1 =>
    obind (opt_const_prop fuel ic p1.1) (fun p2 =>
    obind (opt_dead_code fuel p2.1) (fun p3 =>
    obind (opt_branches fuel p3.1) (fun p4 =>
      let loopb := p1.2 || p2.2 || p3.2 || p4.2
      if loopb then
        obind (optimize fuel ic p4.1) (fun p5 => some (.ok (p5.1, true)))
      else some (.ok (p4.1, false))))))

/- ==================== concrete inputs for the claims ==================== -/

/-- Unwrap a construction step that is checked (by the theorems' evaluations)
to succeed; the default is never consulted. -/
def getOk (r : Res IrState) : IrState :=
  match r with
  | .ok s => s
  | .bug => dfltState

/-- The Bool constant false, `(ir_operand_t){.is_const=true, .iconst={BOOL,0,0}}`. -/
def falseConst : IrOperand := .const ⟨.bool, 0, 0⟩

/-- The Bool constant true. -/
def trueConst : IrOperand := .const ⟨.bool, 1, 0⟩

/-- C1's input: `entry` (id 1) jumps to `loop` (id 2), which jumps to itself.
Block 1 has exactly one successor, block 2, and block 2 has two predecessors.
Built entirely through the builders. -/
def c1_state : IrState :=
  ir_add_jump
    (ir_add_jump (ir_code_create (ir_func_create "f" "entry" []) (some "loop")).1 1 2)
    2 2

/-- C2's first input: `entry` (id 1) holds a return (insn 2); block `b`
(id 3) holds a return (insn 4) and is unreachable. -/
def c2_stateA : IrState :=
  getOk (ir_add_return0
    (ir_code_create (getOk (ir_add_return0 (ir_func_create "f" "entry" []) 1))
      (some "b")).1
    3)

/-- C2's second input: `entry` (id 1) holds `branch false <b>` (insn 4) then
`jump <c>` (insn 5); `b` (id 2) holds `jump <c>` (insn 6); `c` (id 3) holds a
return (insn 7).  The branch-after-nothing and jump-after-branch sequence is
builder-legal (neither `ir_add_branch` nor `ir_add_jump` checks terminator
ordering). -/
def c2_stateB : IrState :=
  getOk (ir_add_return0
    (ir_add_jump
      (ir_add_jump
        (getOk (ir_add_branch
          (ir_code_create (ir_code_create (ir_func_create "f" "entry" []) (some "b")).1
            (some "c")).1
          1 falseConst 2))
        1 3)
      2 3)
    3)

/-- C3's input: `entry` (id 1) holds `mov %v, s32 1` (insn 4) and `jump <l>`
(insn 5); `l` (id 3) holds the combinator `create_combinator` placed for `v`
(id 2, insn 7, bind: the placeholder constant 0 for predecessor `entry`)
followed by `return %v` (insn 6). -/
def c3_state : IrState :=
  create_combinator
    (getOk (ir_add_return1
      (ir_add_jump
        (getOk (ir_add_expr1
          (ir_code_create
            (ir_var_create (ir_func_create "f" "entry" []) .s32 (some "v")).1
            (some "l")).1
          1 2 .mov (.const ⟨.s32, 1, 0⟩)))
        1 3)
      3 (.var 2)))
    3 2

/-- C3's run: the rename walk of `ir_func_to_ssa` for variable `v` — visited
marks are clear, the walk starts at the head of the code list with no current
name and `phi_from = {v}` (ir.c lines 516-521). -/
def c3_run : Option (IrState × List Nat) :=
  rename_assignments 16 c3_state 1 2 none [2]

def c3_post : IrState := (c3_run.getD (dfltState, [])).1

/-- C4's input: variables `v` (id 2) and `w` (id 3); `entry` (id 1) holds
`call.direct <g>, %v, %w` (insn 4), so insn 4 is in both use-sets. -/
def c4_state : IrState :=
  getOk (ir_add_call_direct
    (ir_var_create (ir_var_create (ir_func_create "f" "entry" []) .s32 (some "v")).1
      .s32 (some "w")).1
    1 "g" [.var 2, .var 3])

/-- The s32 constant 7. -/
def sevenConst : IrOperand := .const ⟨.s32, 7, 0⟩

def c4_post : IrState := getOk (ir_var_replace c4_state 2 sevenConst)

/-- C5's input: variable `p` (id 2); `entry` (id 1) holds `call.ptr %p`
(insn 3, no arguments), so insn 3 is in `p`'s use-set. -/
def c5_state : IrState :=
  getOk (ir_add_call_ptr
    (ir_var_create (ir_func_create "f" "entry" []) .s64 (some "p")).1
    1 (.var 2) [])

def c5_post : IrState := ir_insn_delete c5_state 3

/-- C7's input: `entry` (id 1) holds `branch %c, <b>` (insn 4, condition the
Bool variable `c`, id 3); `b` (id 2) holds a return (insn 5).  The builder
recorded the true edge (1 → 2). -/
def c7_state : IrState :=
  getOk (ir_add_return0
    (getOk (ir_add_branch
      (ir_var_create
        (ir_code_create (ir_func_create "f" "entry" []) (some "b")).1
        .bool (some "c")).1
      1 (.var 3) 2))
    2)

def c7_post : IrState := ir_func_recalc_flow c7_state

/-- C9's witness input: `entry` (id 1) already ends in `jump <b>` (insn 3);
`b` (id 2) is empty. -/
def c9_wstate : IrState :=
  ir_add_jump (ir_code_create (ir_func_create "f" "entry" []) (some "b")).1 1 2

/-- C10's input: `f(a)` with parameter `a` (id 1) never used; `entry` (id 2)
holds a return (insn 3). -/
def c10_state : IrState :=
  getOk (ir_add_return0 (ir_func_create "f" "entry" ["a"]) 2)

def c10_run : Option (IrState × Bool) := opt_unused_vars 8 c10_state

def c10_post : IrState := (c10_run.getD (dfltState, false)).1

/-- Whether instruction `i` references variable `v` in some operand position
(reads it): the right-hand side of invariant 1 of §3 of the specification,
over the instruction forms of the data model. -/
def insn_references (st : IrState) (i v : Nat) : Bool :=
  let opRefs := fun (o : IrOperand) => o = .var v
  match (getInsnD st i).data with
  | .expr _ kind =>
    match kind with
    | .combinator froms => froms.any (fun cb => opRefs cb.bind)
    | .unary _ value => opRefs value
    | .binary _ lhs rhs => opRefs lhs || opRefs rhs
    | .undefined => false
  | .flow kind =>
    match kind with
    | .jump _ => false
    | .branch cond _ => opRefs cond
    | .call_direct _ args => args.any (fun a => opRefs a)
    | .call_ptr addr args => opRefs addr || args.any (fun a => opRefs a)
    | .ret value =>
      match value with
      | some o => opRefs o
      | none => false

/-- Observables of an optimizer run: the reported change flag, the code list,
the entry block's instruction list, and whether a probe block still exists;
`none` when the run aborted or ran out of fuel. -/
def pass_obs (r : Option (Res (IrState × Bool))) (probe : Nat) :
    Option (Bool × List Nat × List Nat × Bool) :=
  match r with
  | some (.ok p) =>
    some (p.2, p.1.func.code_list, (getCodeD p.1 p.1.func.entry).insns,
      (getCode? p.1 probe).isSome)
  | _ => none

/-- The visited-clearing fold `opt_branches` performs on C1's input. -/
def c1_cleared : IrState :=
  c1_state.func.code_list.foldl
    (fun s c => modCode s c (fun k => { k with visited := false })) c1_state


/- ==================== small result lemmas ==================== -/

theorem obind_eq_none {α β : Type} {x : Option (Res α)}
    (f : α → Option (Res β)) (h : x = none) : obind x f = none := by
  rw [h]; rfl

/- ==================== lemmas about the hex formatter ==================== -/

theorem hexVal_append_single (l : List Nat) (d : Nat) :
    hexVal (l ++ [d]) = 16 * hexVal l + d := by
  simp [hexVal, List.foldl_append]

theorem hexVal_hexRepAux (f : Nat) : ∀ n : Nat, n < 16 ^ f →
    hexVal (hexRepAux f n) = n := by
  induction f with
  | zero =>
    intro n hn
    interval_cases n
    simp [hexRepAux, hexVal]
  | succ f ih =>
    intro n hn
    by_cases h0 : n = 0
    · simp [hexRepAux, h0, hexVal]
    · have hdiv : n / 16 < 16 ^ f := by
        rw [Nat.div_lt_iff_lt_mul (by norm_num)]
        calc n < 16 ^ (f + 1) := hn
        _ = 16 ^ f * 16 := by ring
      rw [hexRepAux]
      simp only [h0, if_false]
      rw [hexVal_append_single, ih _ hdiv]
      exact Nat.div_add_mod n 16

theorem length_hexRepAux_le (f : Nat) : ∀ n k : Nat, n < 16 ^ k → k ≤ f →
    (hexRepAux f n).length ≤ k := by
  induction f with
  | zero => intro n k _ _; simp [hexRepAux]
  | succ f ih =>
    intro n k hn hk
    by_cases h0 : n = 0
    · simp [hexRepAux, h0]
    · match k with
      | 0 => exact absurd (Nat.lt_one_iff.mp (by simpa using hn)) h0
      | k + 1 =>
        have hdiv : n / 16 < 16 ^ k := by
          rw [Nat.div_lt_iff_lt_mul (by norm_num)]
          calc n < 16 ^ (k + 1) := hn
          _ = 16 ^ k * 16 := by ring
        rw [hexRepAux]
        simp only [h0, if_false, List.length_append, List.length_singleton]
        have := ih (n / 16) k hdiv (Nat.le_of_succ_le_succ hk)
        omega

theorem hexVal_hexRep (n : Nat) (h : n < 16 ^ 16) : hexVal (hexRep n) = n := by
  unfold hexRep
  by_cases h0 : n = 0
  · simp [h0, hexVal]
  · simp only [h0, if_false]
    exact hexVal_hexRepAux 16 n h

theorem length_hexRep_le (n k : Nat) (hn : n < 16 ^ k) (h1 : 1 ≤ k)
    (h16 : k ≤ 16) : (hexRep n).length ≤ k := by
  unfold hexRep
  by_cases h0 : n = 0
  · simpa [h0] using h1
  · simp only [h0, if_false]
    exact length_hexRepAux_le 16 n k hn h16

theorem hexVal_replicate_zero_append (k : Nat) (l : List Nat) :
    hexVal (List.replicate k 0 ++ l) = hexVal l := by
  induction k with
  | zero => simp
  | succ k ih => simpa [List.replicate_succ, hexVal] using ih

theorem printf_hex_length (width n : Nat) (h : (hexRep n).length ≤ width) :
    (printf_hex width n).length = width := by
  simp [printf_hex]
  omega

theorem printf_hex_val (width n : Nat) (h : n < 16 ^ 16) :
    hexVal (printf_hex width n) = n := by
  rw [printf_hex, hexVal_replicate_zero_append, hexVal_hexRep n h]


/- ==================== the claims ==================== -/

/-- On C1's input, once block 1 is marked visited, the merge loop of
`branch_opt_dfs` retests `succ.len == 1` forever: block 1's single successor
(block 2) has two predecessors, so the body changes nothing, and no amount of
fuel completes the loop. -/
theorem c1_spin_aux : ∀ (k : Nat) (b : Bool),
    branch_while k
      (modCode c1_cleared 1 (fun kk => { kk with visited := true })) 1 b
      = none := by
  intro k
  induction k with
  | zero => intro b; rfl
  | succ n ih => intro b; exact ih b

/-- C1: REFUTED on the code (code bug).  The claim says the Branches pass
terminates even when some block has exactly one successor whose predecessor
count is greater than one; on the two-block input `c1_state` (entry jumps to a
self-looping block) `opt_branches` returns `none` for EVERY fuel: the
`while (code->succ.len == 1)` loop of `branch_opt_dfs` (opt.c lines 210-217)
never exits, because when the single successor has more than one predecessor
its body changes nothing.  `optimize`, which invokes this pass verbatim,
therefore does not terminate on `c1_state` either. -/
theorem c1_branches_pass_diverges :
    ∀ fuel : Nat, opt_branches fuel c1_state = none := by
  intro fuel
  cases fuel with
  | zero => rfl
  | succ k => exact obind_eq_none _ (c1_spin_aux k false)

/-- C2: REFUTED on the code (code bug).  On `c2_stateA`, `optimize` deletes
the unreachable block 3 (the final code list is `[1]`) yet returns `false`:
`opt_dead_code` does not report block deletion as a change (opt.c lines
113-120 set no flag), so the driver's "returns true iff any pass made a
change" contract fails.  On `c2_stateB`, `opt_dead_code` itself deletes the
`branch false` instruction (entry's instructions shrink to `[5]`) and the
unreachable block 2, and still reports `false`: the constant-false-branch
deletion (opt.c line 85) does not touch `changed` either. -/
theorem c2_optimize_unreported_changes (ic : IrCalc) :
    pass_obs (optimize 16 ic c2_stateA) 3 = some (false, [1], [2], false)
    ∧ pass_obs (opt_dead_code 16 c2_stateB) 2
      = some (false, [1, 3], [5], false) :=
  ⟨rfl, rfl⟩

/-- C3: REFUTED on the code (code bug).  Running the rename walk of
`ir_func_to_ssa` for variable `v` (id 2) over `c3_state` finishes (the walk
returns `some`), renames the assignment in the entry block to the fresh
variable 8 and the combinator's destination to the fresh variable 9 — but the
combinator entry for predecessor `entry` still binds the placeholder constant
0: `replace_phi_vars` (ir.c line 455) rewrites an entry only when its bind is
NOT a constant, so the placeholder inserted at phi placement is never
rewritten to the renamed variable, and the renamed variable 8 ends with an
empty use-set instead of being read by the phi. -/
theorem c3_phi_placeholder_not_renamed :
    c3_run.isSome = true
    ∧ (getInsnD c3_post 7).data
      = .expr 9 (.combinator [⟨1, .const ⟨.s32, 0, 0⟩⟩])
    ∧ (getInsnD c3_post 4).data = .expr 8 (.unary .mov (.const ⟨.s32, 1, 0⟩))
    ∧ (getVarD c3_post 8).used_at = [] :=
  ⟨rfl, rfl, rfl, rfl⟩

/-- C4: REFUTED on the code (code bug).  `ReplaceVariable(v, s32 7)` on
`c4_state` — where instruction 4 is `call.direct <g>, %v, %w` — rewrites BOTH
arguments to the constant 7, including the second, which names `w` (id 3), a
variable other than `v`: the call-argument loop of `ir_var_replace` (ir.c
lines 652-659) replaces every non-constant argument without comparing it to
`v`.  (`v`'s use-set is cleared as specified.) -/
theorem c4_var_replace_clobbers_other_args :
    (ir_var_replace c4_state 2 sevenConst).isOk = true
    ∧ (getInsnD c4_post 4).data
      = .flow (.call_direct "g" [sevenConst, sevenConst])
    ∧ (getVarD c4_post 2).used_at = [] :=
  ⟨rfl, rfl, rfl⟩

/-- C5: REFUTED on the code (code bug).  Deleting instruction 3 of `c5_state`
— `call.ptr %p` with the variable `p` (id 2) as address operand — removes the
instruction from its block and frees it, but `p`'s use-set still contains the
deleted instruction: `ir_insn_delete` (ir.c line 794) tests
`flow->f_call_ptr.addr.is_const` where every other operand position tests the
negation, so a variable address operand's use is never removed. -/
theorem c5_insn_delete_keeps_callptr_addr_use :
    (getVarD c5_post 2).used_at = [3]
    ∧ getInsn? c5_post 3 = none
    ∧ (getCodeD c5_post 1).insns = [] :=
  ⟨rfl, rfl, rfl⟩

/-- C6: REFUTED on the code (code bug).  After the public operation
`ReplaceVariable(v, s32 7)` on `c4_state`, instruction 4 is still a member of
`w`'s use-set although it no longer references `w` in any operand position
(both call arguments are now the constant 7): use-set consistency does not
hold after every public operation. -/
theorem c6_use_set_invariant_broken :
    4 ∈ (getVarD c4_post 3).used_at
    ∧ insn_references c4_post 4 3 = false :=
  ⟨by decide, rfl⟩

/-- C7: REFUTED on the code (code bug).  `c7_state`'s entry block (id 1) ends
in `branch %c, <b>` targeting block 2, and the builder had recorded the edge
1 → 2; after `RecalculateFlow` the successor set of block 1 is `[0]` — the
reserved non-block value standing for the `f_jump.target` union read of a
branch, which by ir_types.h's layout (condition before target in `f_branch`)
overlays the condition field — block 2 is NOT in it, and block 2's predecessor
set is empty.  The branch terminator's target block is never inserted. -/
theorem c7_recalc_flow_misses_branch_target :
    (getInsnD c7_state 4).data = .flow (.branch (.var 3) 2)
    ∧ (getCodeD c7_state 1).succ = [2]
    ∧ (getCodeD c7_post 1).succ = [0]
    ∧ 2 ∉ (getCodeD c7_post 1).succ
    ∧ (getCodeD c7_post 2).pred = [] :=
  ⟨rfl, rfl, rfl, by decide, rfl⟩

/-- C10: REFUTED on the code (code bug).  On `c10_state` — `f(a)` whose
parameter `a` (id 1) is never used — `opt_unused_vars` reports a deletion and
removes `a` from the function's variable list and heap, while the parameter
array still holds `[1]`: a parameter slot is left pointing at a variable that
is no longer in the function (the serializer would dereference it). -/
theorem c10_unused_vars_deletes_parameter :
    c10_run.map Prod.snd = some true
    ∧ c10_post.func.args = [1]
    ∧ 1 ∉ c10_post.func.vars_list
    ∧ getVar? c10_post 1 = none :=
  ⟨rfl, rfl, by decide, rfl⟩

/- ==================== C8: the constant serializer ==================== -/

theorem ir_prim_sizes_pos (p : IrPrim) : 1 ≤ ir_prim_sizes p := by
  cases p <;> simp [ir_prim_sizes]

/-- C8 counterexample: for the s8 constant with payload 256 the serializer
prints THREE hex digits (`s8'0x100`), not the `2 * size = 2` the claim
demands for every possible payload value: printf's `%0*X` width is a
zero-padding minimum, not a truncation. -/
theorem c8_exact_width_counterexample :
    ir_const_digits .s8 256 0 = [1, 0, 0]
    ∧ (ir_const_digits .s8 256 0).length ≠ 2 * ir_prim_sizes .s8
    ∧ ir_const_serialize ⟨fun _ => "", fun _ => ""⟩ ⟨.s8, 256, 0⟩
      = "s8" ++ tick ++ "0x100" :=
  ⟨by decide, by decide, rfl⟩

/-- C8 as amended: for every non-Bool primitive of byte size at most 8 and
every payload whose LOW HALF IS BELOW `2 ^ (8 * size)`, the serializer emits
the primitive's name, an apostrophe, `0x`, and exactly `2 * size` hexadecimal
digits denoting the low 64-bit half (plus, for f32/f64, the reinterpretation
comment); payloads at or above `2 ^ (8 * size)` print more than `2 * size`
digits, since the printf width is only a minimum. -/
theorem c8_hex_digits_amended (p : IrPrim) (lo hi : Nat) (fc : FloatFmt)
    (hp : p ≠ IrPrim.bool) (hs : ir_prim_sizes p ≤ 8)
    (hlo : lo < 2 ^ (8 * ir_prim_sizes p)) :
    ir_const_digits p lo hi = printf_hex (2 * ir_prim_sizes p) lo
    ∧ (ir_const_digits p lo hi).length = 2 * ir_prim_sizes p
    ∧ hexVal (ir_const_digits p lo hi) = lo
    ∧ ir_const_serialize fc ⟨p, lo, hi⟩
      = ir_prim_names p ++ tick ++ "0x"
        ++ hexString (ir_const_digits p lo hi) ++ float_comment fc p lo := by
  have hne : ir_prim_sizes p ≠ 16 := by omega
  have heq : ir_const_digits p lo hi = printf_hex (2 * ir_prim_sizes p) lo := by
    simp [ir_const_digits, hne]
  have h16 : (2 : Nat) ^ (8 * ir_prim_sizes p) = 16 ^ (2 * ir_prim_sizes p) := by
    rw [show 8 * ir_prim_sizes p = 4 * (2 * ir_prim_sizes p) by ring, pow_mul]
    norm_num
  have hlo16 : lo < 16 ^ (2 * ir_prim_sizes p) := by rw [← h16]; exact hlo
  have hlo64 : lo < 16 ^ 16 :=
    lt_of_lt_of_le hlo16 (Nat.pow_le_pow_right (by norm_num) (by omega))
  have hlen : (hexRep lo).length ≤ 2 * ir_prim_sizes p :=
    length_hexRep_le lo (2 * ir_prim_sizes p) hlo16
      (by have := ir_prim_sizes_pos p; omega) (by omega)
  refine ⟨heq, ?_, ?_, ?_⟩
  · rw [heq]; exact printf_hex_length _ _ hlen
  · rw [heq]; exact printf_hex_val _ _ hlo64
  · simp [ir_const_serialize, hp]

/-- Closed witness for the amended C8 theorem at the s32 constant 5 (the
spec's own scenario constant, serialized `s32'0x00000005`). -/
theorem c8_hex_digits_amended_witness :
    (IrPrim.s32 ≠ IrPrim.bool ∧ ir_prim_sizes .s32 ≤ 8
      ∧ 5 < 2 ^ (8 * ir_prim_sizes .s32))
    ∧ (ir_const_digits .s32 5 0 = printf_hex (2 * ir_prim_sizes .s32) 5
      ∧ (ir_const_digits .s32 5 0).length = 2 * ir_prim_sizes .s32
      ∧ hexVal (ir_const_digits .s32 5 0) = 5
      ∧ ir_const_serialize ⟨fun _ => "", fun _ => ""⟩ ⟨.s32, 5, 0⟩
        = ir_prim_names .s32 ++ tick ++ "0x"
          ++ hexString (ir_const_digits .s32 5 0)
          ++ float_comment ⟨fun _ => "", fun _ => ""⟩ .s32 5) :=
  ⟨⟨by decide, by decide, by norm_num [ir_prim_sizes]⟩,
    c8_hex_digits_amended .s32 5 0 ⟨fun _ => "", fun _ => ""⟩ (by decide)
      (by decide) (by norm_num [ir_prim_sizes])⟩

/- ==================== C9: terminator ordering in the builders =========== -/

theorem lookupA_mapA_same {α : Type} (m : List (Nat × α)) (k : Nat)
    (f : α → α) : lookupA (mapA m k f) k = (lookupA m k).map f := by
  induction m with
  | nil => rfl
  | cons p rest ih =>
    obtain ⟨a, b⟩ := p
    by_cases hak : a = k
    · subst hak
      have h1 : mapA ((a, b) :: rest) a f = (a, f b) :: mapA rest a f := by
        simp [mapA]
      rw [h1]
      simp [lookupA]
    · have h1 : mapA ((a, b) :: rest) k f = (a, b) :: mapA rest k f := by
        simp [mapA, hak]
      rw [h1]
      simp [lookupA, hak, ih]

theorem lookupA_mapA_ne {α : Type} (m : List (Nat × α)) {k k' : Nat}
    (f : α → α) (h : k ≠ k') : lookupA (mapA m k f) k' = lookupA m k' := by
  induction m with
  | nil => rfl
  | cons p rest ih =>
    obtain ⟨a, b⟩ := p
    by_cases hak : a = k
    · subst hak
      have h1 : mapA ((a, b) :: rest) a f = (a, f b) :: mapA rest a f := by
        simp [mapA]
      rw [h1]
      simp [lookupA, h, ih]
    · have h1 : mapA ((a, b) :: rest) k f = (a, b) :: mapA rest k f := by
        simp [mapA, hak]
      rw [h1]
      simp only [lookupA]
      rw [ih]

theorem getCode?_modCode_same (st : IrState) (c : Nat) (f : IrCode → IrCode) :
    getCode? (modCode st c f) c = (getCode? st c).map f :=
  lookupA_mapA_same st.codes c f

theorem getCode?_modCode_ne (st : IrState) {c d : Nat} (f : IrCode → IrCode)
    (h : c ≠ d) : getCode? (modCode st c f) d = getCode? st d :=
  lookupA_mapA_ne st.codes f h

theorem mem_set_add_self (s : List Nat) (x : Nat) : x ∈ set_add s x := by
  by_cases hx : x ∈ s
  · simp [set_add, hx]
  · simp [set_add, hx]

/-- After linking blocks `c → t` the way `ir_add_jump`/`ir_add_branch` do,
`t` is in `c`'s successor set. -/
theorem mem_linked_succ (st0 : IrState) (c t i : Nat) (kc : IrCode)
    (hkc : getCode? st0 c = some kc) :
    t ∈ (getCodeD (appendInsn (modCode (modCode st0 c
        (fun k => { k with succ := set_add k.succ t })) t
        (fun k => { k with pred := set_add k.pred c })) c i) c).succ := by
  unfold appendInsn getCodeD
  by_cases hct : c = t
  · subst hct
    rw [getCode?_modCode_same, getCode?_modCode_same, getCode?_modCode_same,
      hkc]
    simpa using mem_set_add_self kc.succ c
  · rw [getCode?_modCode_same, getCode?_modCode_ne _ _ (Ne.symm hct),
      getCode?_modCode_same, hkc]
    simpa using mem_set_add_self kc.succ t

/-- After linking blocks `c → t` the way `ir_add_jump`/`ir_add_branch` do,
`c` is in `t`'s predecessor set. -/
theorem mem_linked_pred (st0 : IrState) (c t i : Nat) (kt : IrCode)
    (hkt : getCode? st0 t = some kt) :
    c ∈ (getCodeD (appendInsn (modCode (modCode st0 c
        (fun k => { k with succ := set_add k.succ t })) t
        (fun k => { k with pred := set_add k.pred c })) c i) t).pred := by
  unfold appendInsn getCodeD
  by_cases hct : c = t
  · subst hct
    rw [getCode?_modCode_same, getCode?_modCode_same, getCode?_modCode_same,
      hkt]
    simpa using mem_set_add_self kt.pred c
  · rw [getCode?_modCode_ne _ _ hct, getCode?_modCode_same,
      getCode?_modCode_ne _ _ hct, hkt]
    simpa using mem_set_add_self kt.pred c

/-- C9: CONFIRMED.  In any state whose block `c` already ends in a jump or
branch terminator (and whose blocks `c` and `t` exist), appending another
jump or branch succeeds — neither `ir_add_jump` nor `ir_add_branch` performs
the terminator-ordering test — and both maintain the pred/succ sets of the
two endpoints; whereas appending any expression, combinator, call, or return
in that position aborts as a programmer bug (`[BUG] Cannot have … after jump
or branch`). -/
theorem c9_terminator_ordering (st : IrState) (c t d : Nat) (o1 : IrOp1)
    (o2 : IrOp2) (a b : IrOperand) (froms : List IrCombinator) (lbl : String)
    (args : List IrOperand)
    (h : block_ends_in_terminator st c = true)
    (hc : (getCode? st c).isSome = true)
    (ht : (getCode? st t).isSome = true) :
    (t ∈ (getCodeD (ir_add_jump st c t) c).succ
      ∧ c ∈ (getCodeD (ir_add_jump st c t) t).pred)
    ∧ (∃ st2, ir_add_branch st c trueConst t = .ok st2
      ∧ t ∈ (getCodeD st2 c).succ ∧ c ∈ (getCodeD st2 t).pred)
    ∧ ir_add_expr1 st c d o1 a = .bug
    ∧ ir_add_expr2 st c d o2 a b = .bug
    ∧ ir_add_undefined st c d = .bug
    ∧ ir_add_combinator st c d froms = .bug
    ∧ ir_add_call_direct st c lbl args = .bug
    ∧ ir_add_call_ptr st c a args = .bug
    ∧ ir_add_return0 st c = .bug
    ∧ ir_add_return1 st c a = .bug := by
  obtain ⟨kc, hkc⟩ := Option.isSome_iff_exists.mp hc
  obtain ⟨kt, hkt⟩ := Option.isSome_iff_exists.mp ht
  refine ⟨⟨?_, ?_⟩, ⟨_, rfl, ?_, ?_⟩, ?_, ?_, ?_, ?_, ?_, ?_, ?_, ?_⟩
  · exact mem_linked_succ _ c t _ kc hkc
  · exact mem_linked_pred _ c t _ kt hkt
  · exact mem_linked_succ _ c t _ kc hkc
  · exact mem_linked_pred _ c t _ kt hkt
  · simp [ir_add_expr1, h]
  · simp [ir_add_expr2, h]
  · simp [ir_add_undefined, h]
  · simp [ir_add_combinator, h]
  · simp [ir_add_call_direct, h]
  · simp [ir_add_call_ptr, h]
  · simp [ir_add_return0, h]
  · simp [ir_add_return1, h]

/-- Closed witness for C9 at `c9_wstate`, whose entry block already ends in
`jump <b>`. -/
theorem c9_terminator_ordering_witness :
    (block_ends_in_terminator c9_wstate 1 = true
      ∧ (getCode? c9_wstate 1).isSome = true
      ∧ (getCode? c9_wstate 2).isSome = true)
    ∧ ((2 ∈ (getCodeD (ir_add_jump c9_wstate 1 2) 1).succ
        ∧ 1 ∈ (getCodeD (ir_add_jump c9_wstate 1 2) 2).pred)
      ∧ (∃ st2, ir_add_branch c9_wstate 1 trueConst 2 = .ok st2
        ∧ 2 ∈ (getCodeD st2 1).succ ∧ 1 ∈ (getCodeD st2 2).pred)
      ∧ ir_add_expr1 c9_wstate 1 5 .mov sevenConst = .bug
      ∧ ir_add_expr2 c9_wstate 1 5 .add sevenConst sevenConst = .bug
      ∧ ir_add_undefined c9_wstate 1 5 = .bug
      ∧ ir_add_combinator c9_wstate 1 5 [] = .bug
      ∧ ir_add_call_direct c9_wstate 1 "g" [] = .bug
      ∧ ir_add_call_ptr c9_wstate 1 sevenConst [] = .bug
      ∧ ir_add_return0 c9_wstate 1 = .bug
      ∧ ir_add_return1 c9_wstate 1 sevenConst = .bug) :=
  ⟨⟨rfl, rfl, rfl⟩,
    c9_terminator_ordering c9_wstate 1 2 5 .mov .add sevenConst sevenConst []
      "g" [] rfl rfl rfl⟩
